import Mathlib

/-!
# Verification of the dns_proxy DNS wire-format core

A shallow embedding of the DNS wire-format engine of `src/dns_utils.c`
(the Name Decoder `extract_domain`, the Query Parser `parse_dns_query`,
and the three Response Builders `build_fake_a_response`,
`build_nxdomain_response`, `build_refused_response`), together with
theorems settling the specification's claims about it.

Modelling conventions:
* A C byte buffer is a `List ℕ` of byte values; an explicit length
  parameter (`req_len`, `buf_len`) models the length argument the C
  functions receive.  Reads are `List.getD _ _ 0`; where the C code can
  read beyond the stated length, the list may be longer than the length
  parameter, so that the extra elements model adjacent memory.
* Functions returning `-1` on error are modelled with `Option`: `none`
  is the failure signal, `some out` is success with `out` the bytes
  written (whose `length` is the C return value).
* For claims about which indices of a caller-supplied output buffer are
  written, a companion `..._writes` definition records the exact
  sequence of `(index, value)` stores the C code performs.
* C `while` loops are embedded as structurally recursive functions on a
  fuel argument instantiated with the loop's iteration bound; the fuel
  is provably never exhausted before the loop's own exit condition.
-/

namespace DnsProxy

/-- Models `memcpy(dst, src + srcOff, n)` as the list of the `n` bytes read
from `src` starting at offset `srcOff` (reads via `getD`, default 0). -/
def copyBytes (src : List ℕ) (srcOff n : ℕ) : List ℕ :=
  (List.range n).map (fun k => src.getD (srcOff + k) 0)

/-- Fuel-indexed embedding of the scan loop
`while (i < req_len && req[i] != 0) i++;` used by all three response
builders to find the end of the question name.  One fuel unit is one
loop iteration; with fuel `req_len - i` the fuel never runs out before
the loop's exit condition holds. -/
def scanZeroAux (req : List ℕ) (req_len : ℕ) : ℕ → ℕ → ℕ
  | 0, i => i
  | fuel + 1, i =>
    if i < req_len then
      if req.getD i 0 = 0 then i else scanZeroAux req req_len fuel (i + 1)
    else i

/-- The index at which the builders' scan loop stops, starting from `i`:
the first index `j ≥ i` with `j < req_len` and `req[j] = 0`, or the
first `j ≥ i` with `j ≥ req_len` if no zero byte occurs. -/
def scanZero (req : List ℕ) (req_len i : ℕ) : ℕ :=
  scanZeroAux req req_len (req_len - i) i

/-- Models POSIX `inet_pton(AF_INET, ...)` on one dotted-quad component:
one to three decimal digits with value at most 255. -/
def parseOctet (s : List ℕ) : Option ℕ :=
  if s ≠ [] ∧ s.length ≤ 3 ∧ ∀ ch ∈ s, 48 ≤ ch ∧ ch ≤ 57 then
    if s.foldl (fun acc ch => acc * 10 + (ch - 48)) 0 ≤ 255 then
      some (s.foldl (fun acc ch => acc * 10 + (ch - 48)) 0)
    else none
  else none

/-- Models POSIX `inet_pton(AF_INET, s, &addr)` (a libc collaborator of
`build_fake_a_response`, not repository code): parses a dotted-quad
IPv4 literal, given as the list of its character codes, into its four
raw network-order octets; any other shape fails. -/
def inet_pton (s : List ℕ) : Option (ℕ × ℕ × ℕ × ℕ) :=
  match (s.splitOn 46).map parseOctet with
  | [some a, some b, some c, some d] => some (a, b, c, d)
  | _ => none

/-- The four bytes `htonl((uint32_t)ttl)` stores in memory (network byte
order, most significant byte first). -/
def ttlBytes (ttl : ℕ) : List ℕ :=
  [ttl / 2 ^ 24 % 256, ttl / 2 ^ 16 % 256, ttl / 2 ^ 8 % 256, ttl % 256]

/-- Embedding of `build_fake_a_response` from `src/dns_utils.c`:
`none` models the C return value `-1`; `some out` models success with
return value `out.length`.  The header is the verbatim copy of the
request's first 12 bytes with bytes 2-11 then overwritten exactly as
the C code does (`flags2 = 0x84 | (req[2] & 0x01)`, `flags3 = 0x80`,
ANCOUNT 1, NSCOUNT/ARCOUNT 0). -/
def build_fake_a_response (req : List ℕ) (req_len resp_cap : ℕ)
    (fake_ip : List ℕ) (ttl : ℕ) : Option (List ℕ) :=
  if req_len < 12 then none
  else
    let i := scanZero req req_len 12
    if req_len - 4 ≤ i then none
    else
      let qd_len := (i - 12) + 1 + 4
      if resp_cap < 12 + qd_len then none
      else if resp_cap < 12 + qd_len + 16 then none
      else
        match inet_pton fake_ip with
        | none => none
        | some (a, b, c, d) =>
          some ([req.getD 0 0, req.getD 1 0,
                 0x84 ||| (req.getD 2 0 &&& 0x01), 0x80,
                 req.getD 4 0, req.getD 5 0,
                 0x00, 0x01, 0x00, 0x00, 0x00, 0x00] ++
                copyBytes req 12 qd_len ++
                [0xC0, 0x0C, 0x00, 0x01, 0x00, 0x01] ++
                ttlBytes ttl ++
                [0x00, 0x04] ++
                [a, b, c, d])

/-- Embedding of `build_nxdomain_response` from `src/dns_utils.c`:
only the 2-byte transaction ID is copied from the request; the rest of
the header is rebuilt (`resp[2] = 0x81`, `resp[3] = 0x83`, QDCOUNT 1,
other counts 0), then the question section is copied verbatim. -/
def build_nxdomain_response (req : List ℕ) (req_len resp_cap : ℕ) :
    Option (List ℕ) :=
  if req_len < 12 then none
  else
    let i := scanZero req req_len 12
    if req_len - 4 ≤ i then none
    else
      let qd_len := (i - 12) + 1 + 4
      if resp_cap < 12 + qd_len then none
      else
        some ([req.getD 0 0, req.getD 1 0, 0x81, 0x83, 0x00, 0x01,
               0x00, 0x00, 0x00, 0x00, 0x00, 0x00] ++
              copyBytes req 12 qd_len)

/-- Embedding of `build_refused_response` from `src/dns_utils.c`:
identical to `build_nxdomain_response` except `resp[3] = 0x85`. -/
def build_refused_response (req : List ℕ) (req_len resp_cap : ℕ) :
    Option (List ℕ) :=
  if req_len < 12 then none
  else
    let i := scanZero req req_len 12
    if req_len - 4 ≤ i then none
    else
      let qd_len := (i - 12) + 1 + 4
      if resp_cap < 12 + qd_len then none
      else
        some ([req.getD 0 0, req.getD 1 0, 0x81, 0x85, 0x00, 0x01,
               0x00, 0x00, 0x00, 0x00, 0x00, 0x00] ++
              copyBytes req 12 qd_len)

/-- The exact sequence of `(index, value)` stores `build_fake_a_response`
performs into the caller's `resp` buffer, including the stores performed
on paths that end by returning `-1`: the 12-byte header `memcpy` and the
flag/count stores happen before any capacity check. -/
def build_fake_a_writes (req : List ℕ) (req_len resp_cap : ℕ)
    (fake_ip : List ℕ) (ttl : ℕ) : List (ℕ × ℕ) :=
  if req_len < 12 then []
  else
    let hdrW := (List.range 12).map (fun k => (k, req.getD k 0)) ++
      [(2, 0x84 ||| (req.getD 2 0 &&& 0x01)), (3, 0x80),
       (6, 0x00), (7, 0x01), (8, 0x00), (9, 0x00), (10, 0x00), (11, 0x00)]
    let i := scanZero req req_len 12
    if req_len - 4 ≤ i then hdrW
    else
      let qd_len := (i - 12) + 1 + 4
      if resp_cap < 12 + qd_len then hdrW
      else
        let questW := (List.range qd_len).map
          (fun k => (12 + k, req.getD (12 + k) 0))
        let offset := 12 + qd_len
        if resp_cap < offset + 16 then hdrW ++ questW
        else
          let recW := [(offset, 0xC0), (offset + 1, 0x0C),
                       (offset + 2, 0x00), (offset + 3, 0x01),
                       (offset + 4, 0x00), (offset + 5, 0x01)] ++
            (List.range 4).map (fun k => (offset + 6 + k, (ttlBytes ttl).getD k 0)) ++
            [(offset + 10, 0x00), (offset + 11, 0x04)]
          match inet_pton fake_ip with
          | none => hdrW ++ questW ++ recW
          | some (a, b, c, d) =>
            hdrW ++ questW ++ recW ++
              [(offset + 12, a), (offset + 13, b), (offset + 14, c), (offset + 15, d)]

/-- The exact sequence of `(index, value)` stores `build_nxdomain_response`
performs into `resp`, including those on paths returning `-1`. -/
def build_nxdomain_writes (req : List ℕ) (req_len resp_cap : ℕ) :
    List (ℕ × ℕ) :=
  if req_len < 12 then []
  else
    let hdrW := (List.range 2).map (fun k => (k, req.getD k 0)) ++
      [(2, 0x81), (3, 0x83), (4, 0x00), (5, 0x01),
       (6, 0x00), (7, 0x00), (8, 0x00), (9, 0x00), (10, 0x00), (11, 0x00)]
    let i := scanZero req req_len 12
    if req_len - 4 ≤ i then hdrW
    else
      let qd_len := (i - 12) + 1 + 4
      if resp_cap < 12 + qd_len then hdrW
      else
        hdrW ++ (List.range qd_len).map (fun k => (12 + k, req.getD (12 + k) 0))

/-- The exact sequence of `(index, value)` stores `build_refused_response`
performs into `resp`, including those on paths returning `-1`. -/
def build_refused_writes (req : List ℕ) (req_len resp_cap : ℕ) :
    List (ℕ × ℕ) :=
  if req_len < 12 then []
  else
    let hdrW := (List.range 2).map (fun k => (k, req.getD k 0)) ++
      [(2, 0x81), (3, 0x85), (4, 0x00), (5, 0x01),
       (6, 0x00), (7, 0x00), (8, 0x00), (9, 0x00), (10, 0x00), (11, 0x00)]
    let i := scanZero req req_len 12
    if req_len - 4 ≤ i then hdrW
    else
      let qd_len := (i - 12) + 1 + 4
      if resp_cap < 12 + qd_len then hdrW
      else
        hdrW ++ (List.range qd_len).map (fun k => (12 + k, req.getD (12 + k) 0))

/-- Fuel-indexed embedding of `extract_domain`'s main loop from
`src/dns_utils.c`.  Returns the final value of `i` together with the
characters written into `domain` (label bytes and separators), in
order, so that the k-th element of the returned list is the byte
stored at `domain[pos₀ + k]`.  One fuel unit is one outer-loop
iteration; since `i` strictly increases each iteration, fuel
`buf_len - i` never runs out before the loop's own exit condition. -/
def extractLoopAux (buf : List ℕ) (buf_len maxlen : ℕ) :
    ℕ → ℕ → ℕ → ℕ × List ℕ
  | 0, i, _ => (i, [])
  | fuel + 1, i, pos =>
    if i < buf_len ∧ buf.getD i 0 ≠ 0 then
      let len := buf.getD i 0
      if maxlen ≤ pos + len + 1 then (i + 1, [])
      else
        let c := min len (buf_len - (i + 1))
        let r := extractLoopAux buf buf_len maxlen fuel (i + 1 + c) (pos + (c + 1))
        (r.1, (copyBytes buf (i + 1) c ++ [46]) ++ r.2)
    else (i, [])

/-- The `extract_domain` loop run from index `i`, character position `pos`. -/
def extractLoop (buf : List ℕ) (buf_len maxlen i pos : ℕ) : ℕ × List ℕ :=
  extractLoopAux buf buf_len maxlen (buf_len - i) i pos

/-- The outputs of `extract_domain`: the final contents of the written
region of `domain` (loop characters with the final NUL store applied),
`*qtype`, `*qclass`, and `*qend`. -/
structure ExtractResult where
  domain : List ℕ
  qtype : ℕ
  qclass : ℕ
  qend : ℕ
deriving DecidableEq

/-- Embedding of `extract_domain` from `src/dns_utils.c`.  The loop is
`extractLoop buf buf_len maxlen 12 0`; then the code stores a NUL over
the final separator (or at `domain[0]` when nothing was written), and
if `i + 4 <= buf_len` it increments `i` and reads QTYPE and QCLASS as
big-endian 16-bit integers from `buf[i] .. buf[i+3]` — note the bound
check is on the pre-increment `i`, so these reads reach index
`i + 4` of the buffer (one byte past `buf_len` when equality holds);
otherwise QTYPE and QCLASS are 0 and `qend` is the current position. -/
def extract_domain (buf : List ℕ) (buf_len maxlen : ℕ) : ExtractResult :=
  let r := extractLoop buf buf_len maxlen 12 0
  let domain := if r.2 = [] then [0] else r.2.dropLast ++ [0]
  if r.1 + 4 ≤ buf_len then
    { domain := domain
      qtype := buf.getD (r.1 + 1) 0 <<< 8 ||| buf.getD (r.1 + 2) 0
      qclass := buf.getD (r.1 + 3) 0 <<< 8 ||| buf.getD (r.1 + 4) 0
      qend := r.1 + 5 }
  else
    { domain := domain, qtype := 0, qclass := 0, qend := r.1 }

/-- The exact sequence of `(index, value)` stores `extract_domain`
performs into the caller's `domain` buffer: the loop's consecutive
stores from index 0, then the final NUL store (`domain[pos-1] = 0`
when anything was written, else `domain[0] = 0`; in both cases index
`chars.length - 1` under ℕ subtraction). -/
def extract_domain_writes (buf : List ℕ) (buf_len maxlen : ℕ) :
    List (ℕ × ℕ) :=
  let chars := (extractLoop buf buf_len maxlen 12 0).2
  chars.enum ++ [(chars.length - 1, 0)]

/-- Embedding of `parse_dns_query` from `src/dns_utils.c`: runs
`extract_domain` with `maxlen` 256 and succeeds (C return 0) exactly
when the first byte of `domain` is not NUL, returning the domain and
the type/class values; `none` models the C return `-1`. -/
def parse_dns_query (buf : List ℕ) (len : ℕ) : Option (List ℕ × ℕ × ℕ) :=
  let r := extract_domain buf len 256
  if r.domain.getD 0 0 ≠ 0 then some (r.domain, r.qtype, r.qclass) else none

/-- The value of the C string stored in a buffer: its bytes up to (not
including) the first NUL. -/
def cString (l : List ℕ) : List ℕ := l.takeWhile (· ≠ 0)

/-- The RFC1035 wire encoding of a question name given as its list of
labels: each label length-prefixed, then the terminating zero byte. -/
def encodeLabels (labels : List (List ℕ)) : List ℕ :=
  (labels.map (fun l => l.length :: l)).flatten ++ [0]

/-- Re-encoding of a dotted domain string (byte list) as length-prefixed
labels: split on the separator 46 and length-prefix each part, then
append the terminating zero byte. -/
def encodeDotted (s : List ℕ) : List ℕ :=
  ((s.splitOn 46).map (fun l => l.length :: l)).flatten ++ [0]

/-- The 29-byte example query from the spec's scenario and the repository's
test file: ID 0x1234, flags 0x0100 (RD), QDCOUNT 1, name example.com,
QTYPE A, QCLASS IN. -/
def exampleQuery : List ℕ :=
  [0x12, 0x34, 0x01, 0x00, 0x00, 0x01, 0x00, 0x00, 0x00, 0x00, 0x00, 0x00,
   7, 101, 120, 97, 109, 112, 108, 101,
   3, 99, 111, 109,
   0,
   0x00, 0x01, 0x00, 0x01]

/-- The character codes of the string "1.2.3.4". -/
def ip1234 : List ℕ := [49, 46, 50, 46, 51, 46, 52]

/-- The example query with its QDCOUNT field (bytes 4-5) set to 2 instead
of 1; the question section is unchanged. -/
def exampleQueryQd2 : List ℕ :=
  [0x12, 0x34, 0x01, 0x00, 0x00, 0x02, 0x00, 0x00, 0x00, 0x00, 0x00, 0x00,
   7, 101, 120, 97, 109, 112, 108, 101,
   3, 99, 111, 109,
   0,
   0x00, 0x01, 0x00, 0x01]

/-- A 15-byte message whose question section is malformed: the label
sequence (one label of length 2, then nothing) ends before its
terminating zero byte. -/
def truncatedQuery : List ℕ :=
  [0x12, 0x34, 0x01, 0x00, 0x00, 0x01, 0x00, 0x00, 0x00, 0x00, 0x00, 0x00,
   2, 97, 98]

/-- A 16-byte message: header, the name terminator at offset 12, and then
only 3 bytes — one byte short of a full QTYPE/QCLASS. -/
def shortTailQuery : List ℕ :=
  [0x12, 0x34, 0x01, 0x00, 0x00, 0x01, 0x00, 0x00, 0x00, 0x00, 0x00, 0x00,
   0, 9, 9, 9]

/-- `shortTailQuery` with one extra byte of adjacent memory (value 7)
past the 16-byte message; `extract_domain` is still told the length
is 16. -/
def shortTailQueryMem : List ℕ := shortTailQuery ++ [7]

/-! ## Basic facts about the embedded operations -/

theorem le_scanZeroAux (req : List ℕ) (req_len : ℕ) :
    ∀ fuel i, i ≤ scanZeroAux req req_len fuel i := by
  intro fuel
  induction fuel with
  | zero => intro i; exact Nat.le_refl i
  | succ n ih =>
    intro i
    simp only [scanZeroAux]
    split
    · split
      · exact Nat.le_refl i
      · exact Nat.le_trans (Nat.le_succ i) (ih (i + 1))
    · exact Nat.le_refl i

theorem le_scanZero (req : List ℕ) (req_len i : ℕ) :
    i ≤ scanZero req req_len i :=
  le_scanZeroAux req req_len (req_len - i) i

theorem copyBytes_length (src : List ℕ) (srcOff n : ℕ) :
    (copyBytes src srcOff n).length = n := by
  simp [copyBytes]

theorem copyBytes_eq_take_drop (src : List ℕ) (off n : ℕ)
    (h : off + n ≤ src.length) :
    copyBytes src off n = (src.drop off).take n := by
  apply List.ext_getElem
  · simp [copyBytes]; omega
  · intro k h1 h2
    simp only [copyBytes, List.getElem_map, List.getElem_range,
      List.getElem_take, List.getElem_drop]
    have hk : off + k < src.length := by
      simp [copyBytes] at h1; omega
    rw [List.getD_eq_getElem?_getD, List.getElem?_eq_getElem hk]
    rfl

/-- The two flag bytes `build_fake_a_response` stores: for any request
byte `x`, `0x84 | (x & 0x01)` has QR (0x80) and AA (0x04) set and
preserves the RD bit (0x01) of `x`. -/
theorem flags2_bits (x : ℕ) :
    (0x84 ||| (x &&& 0x01)) &&& 0x80 = 0x80 ∧
    (0x84 ||| (x &&& 0x01)) &&& 0x04 = 0x04 ∧
    (0x84 ||| (x &&& 0x01)) &&& 0x01 = x &&& 0x01 := by
  have h : x &&& 1 = x % 2 := Nat.and_one_is_mod x
  rcases Nat.mod_two_eq_zero_or_one x with h2 | h2 <;>
    rw [show (0x01 : ℕ) = 1 from rfl, h, h2] <;> exact ⟨by decide, by decide, by decide⟩

/-- Explicit success form of `build_nxdomain_response`: when the request
is at least 12 bytes, the question-name terminator is found strictly
before `req_len - 4`, and the capacity suffices, the builder returns
the rebuilt header followed by the copied question section. -/
theorem build_nxdomain_response_eq (req : List ℕ) (req_len resp_cap : ℕ)
    (h12 : 12 ≤ req_len) (hz : scanZero req req_len 12 < req_len - 4)
    (hcap : scanZero req req_len 12 + 5 ≤ resp_cap) :
    build_nxdomain_response req req_len resp_cap =
      some ([req.getD 0 0, req.getD 1 0, 0x81, 0x83, 0x00, 0x01,
             0x00, 0x00, 0x00, 0x00, 0x00, 0x00] ++
            copyBytes req 12 ((scanZero req req_len 12 - 12) + 1 + 4)) := by
  have hge := le_scanZero req req_len 12
  simp only [build_nxdomain_response]
  rw [if_neg (by omega), if_neg (by omega), if_neg (by omega)]

/-- Explicit success form of `build_refused_response`. -/
theorem build_refused_response_eq (req : List ℕ) (req_len resp_cap : ℕ)
    (h12 : 12 ≤ req_len) (hz : scanZero req req_len 12 < req_len - 4)
    (hcap : scanZero req req_len 12 + 5 ≤ resp_cap) :
    build_refused_response req req_len resp_cap =
      some ([req.getD 0 0, req.getD 1 0, 0x81, 0x85, 0x00, 0x01,
             0x00, 0x00, 0x00, 0x00, 0x00, 0x00] ++
            copyBytes req 12 ((scanZero req req_len 12 - 12) + 1 + 4)) := by
  have hge := le_scanZero req req_len 12
  simp only [build_refused_response]
  rw [if_neg (by omega), if_neg (by omega), if_neg (by omega)]

/-- Explicit success form of `build_fake_a_response`. -/
theorem build_fake_a_response_eq (req : List ℕ) (req_len resp_cap : ℕ)
    (fake_ip : List ℕ) (ttl : ℕ) (a b c d : ℕ)
    (h12 : 12 ≤ req_len) (hz : scanZero req req_len 12 < req_len - 4)
    (hcap : scanZero req req_len 12 + 21 ≤ resp_cap)
    (hip : inet_pton fake_ip = some (a, b, c, d)) :
    build_fake_a_response req req_len resp_cap fake_ip ttl =
      some ([req.getD 0 0, req.getD 1 0,
             0x84 ||| (req.getD 2 0 &&& 0x01), 0x80,
             req.getD 4 0, req.getD 5 0,
             0x00, 0x01, 0x00, 0x00, 0x00, 0x00] ++
            copyBytes req 12 ((scanZero req req_len 12 - 12) + 1 + 4) ++
            [0xC0, 0x0C, 0x00, 0x01, 0x00, 0x01] ++
            ttlBytes ttl ++
            [0x00, 0x04] ++
            [a, b, c, d]) := by
  have hge := le_scanZero req req_len 12
  simp only [build_fake_a_response]
  rw [if_neg (by omega), if_neg (by omega), if_neg (by omega), if_neg (by omega), hip]

/-! ## Claim theorems -/

/-- C3: refuted on the code (code bug).  `extract_domain` is claimed to
read only indices strictly below `buf_len` and to report QTYPE and
QCLASS as 0 when fewer than 4 bytes remain after the terminating zero
byte.  In fact, on a 16-byte buffer whose name terminator is at offset
12 (so only 3 bytes remain after it), the bound check `i + 4 <= buf_len`
passes and the code reads QTYPE/QCLASS from `buf[13..16]` — index 16
equals `buf_len`, one byte past the valid region.  Concretely: the two
buffers below agree on every index below `buf_len = 16` (the second
merely has one extra byte of adjacent memory), yet `extract_domain`
returns different results on them, and QTYPE is reported nonzero
instead of 0. -/
theorem extract_domain_reads_past_buf_len :
    shortTailQueryMem.take 16 = shortTailQuery ∧
    (extract_domain shortTailQuery 16 256).qtype = 0x0909 ∧
    (extract_domain shortTailQuery 16 256).qclass = 0x0900 ∧
    (extract_domain shortTailQueryMem 16 256).qclass = 0x0907 ∧
    extract_domain shortTailQuery 16 256 ≠ extract_domain shortTailQueryMem 16 256 := by
  decide

/-- C5: refuted on the code (code bug).  Each builder is claimed to write
only at indices strictly below `resp_cap`, signalling failure instead of
any out-of-capacity write.  In fact all three builders store the 12-byte
header (indices 0..11) before any capacity check: with `resp_cap = 0`
and a well-formed 29-byte query each builder returns the failure signal,
but its write trace already contains the store of the transaction-ID
byte at index 0 (and the rest of the header), which is not below
`resp_cap`. -/
theorem builders_write_header_before_capacity_check :
    build_fake_a_response exampleQuery 29 0 ip1234 60 = none ∧
    build_nxdomain_response exampleQuery 29 0 = none ∧
    build_refused_response exampleQuery 29 0 = none ∧
    (0, 0x12) ∈ build_fake_a_writes exampleQuery 29 0 ip1234 60 ∧
    (0, 0x12) ∈ build_nxdomain_writes exampleQuery 29 0 ∧
    (0, 0x12) ∈ build_refused_writes exampleQuery 29 0 ∧
    ¬ (∀ w ∈ build_fake_a_writes exampleQuery 29 0 ip1234 60, w.1 < 0) := by
  decide

/-- C8: confirmed.  On the spec's scenario query (ID 0x1234, RD set,
question example.com A IN) with fake_ip "1.2.3.4", ttl 60 and a
generously sized output buffer, `build_fake_a_response` succeeds with
total length 45 (12-byte header + 17-byte question + 16-byte answer),
not the spec's headline figure 32, and the trailing 4 bytes of the
output are 01 02 03 04. -/
theorem fake_a_scenario_length_45 :
    (build_fake_a_response exampleQuery 29 1500 ip1234 60).map List.length
      = some 45 ∧
    (build_fake_a_response exampleQuery 29 1500 ip1234 60).map (List.drop 41)
      = some [1, 2, 3, 4] := by
  decide

/-- C4, counterexample: the claim that every successful response has
QDCOUNT = 1 fails for `build_fake_a_response`, which inherits bytes 4-5
verbatim from the request: on a well-formed query whose QDCOUNT field
is 2, the builder succeeds and the response's QDCOUNT field is 2. -/
theorem fake_a_qdcount_inherited_not_one :
    build_fake_a_response exampleQueryQd2 29 1500 ip1234 60 ≠ none ∧
    ((build_fake_a_response exampleQueryQd2 29 1500 ip1234 60).getD []).getD 4 0 = 0 ∧
    ((build_fake_a_response exampleQueryQd2 29 1500 ip1234 60).getD []).getD 5 0 = 2 := by
  decide

/-- C6, counterexample: the claim that `parse_dns_query` returns failure
whenever the question section is malformed fails: on a 15-byte input
whose label sequence ends before its terminating zero byte (no zero
byte occurs at or after offset 12), the parser still reports success,
returning the partially decoded name "ab" with type and class 0. -/
theorem parse_dns_query_accepts_truncated_question :
    truncatedQuery.length = 15 ∧
    0 ∉ truncatedQuery.drop 12 ∧
    parse_dns_query truncatedQuery 15 = some ([97, 98, 0], 0, 0) := by
  decide

/-- C10, counterexample: with `maxlen = 1` (allowed by the claim's
`maxlen ≥ 1`), `extract_domain` stores the terminating NUL at
`domain[0]`, i.e. at index `maxlen - 1 = 0`, which is not strictly
below `maxlen - 1`. -/
theorem extract_domain_writes_at_maxlen_sub_one :
    extract_domain_writes exampleQuery 29 1 = [(0, 0)] ∧
    ¬ ((0 : ℕ) < 1 - 1) := by
  decide

/-- C9: confirmed.  On every input, `build_nxdomain_response` and
`build_refused_response` either both fail or both succeed with outputs
of the same (positive) length that agree at every byte index except
index 3, where the NXDOMAIN builder stores 0x83 and the REFUSED
builder stores 0x85. -/
theorem nxdomain_refused_agree (req : List ℕ) (req_len resp_cap : ℕ) :
    (build_nxdomain_response req req_len resp_cap = none ∧
     build_refused_response req req_len resp_cap = none) ∨
    (∃ o₁ o₂,
      build_nxdomain_response req req_len resp_cap = some o₁ ∧
      build_refused_response req req_len resp_cap = some o₂ ∧
      o₁.length = o₂.length ∧ 0 < o₁.length ∧
      o₁.getD 3 0 = 0x83 ∧ o₂.getD 3 0 = 0x85 ∧
      ∀ k, k ≠ 3 → o₁.getD k 0 = o₂.getD k 0) := by
  have hge := le_scanZero req req_len 12
  by_cases h1 : req_len < 12
  · exact Or.inl ⟨by simp [build_nxdomain_response, h1],
      by simp [build_refused_response, h1]⟩
  · by_cases h2 : req_len - 4 ≤ scanZero req req_len 12
    · exact Or.inl ⟨by simp [build_nxdomain_response, h1, h2],
        by simp [build_refused_response, h1, h2]⟩
    · by_cases h3 : resp_cap < 12 + ((scanZero req req_len 12 - 12) + 1 + 4)
      · exact Or.inl ⟨by simp [build_nxdomain_response, h1, h2, h3],
          by simp [build_refused_response, h1, h2, h3]⟩
      · refine Or.inr ⟨_, _,
          build_nxdomain_response_eq req req_len resp_cap (by omega) (by omega)
            (by omega),
          build_refused_response_eq req req_len resp_cap (by omega) (by omega)
            (by omega),
          by simp, by simp, rfl, rfl, ?_⟩
        intro k hk
        rcases k with _ | _ | _ | _ | n
        · rfl
        · rfl
        · rfl
        · exact absurd rfl hk
        · simp only [List.cons_append, List.getD_cons_succ]

/-- C9, witness: the agreement theorem applied to the example query with
capacity 512. -/
theorem nxdomain_refused_agree_witness :
    (build_nxdomain_response exampleQuery 29 512 = none ∧
     build_refused_response exampleQuery 29 512 = none) ∨
    (∃ o₁ o₂,
      build_nxdomain_response exampleQuery 29 512 = some o₁ ∧
      build_refused_response exampleQuery 29 512 = some o₂ ∧
      o₁.length = o₂.length ∧ 0 < o₁.length ∧
      o₁.getD 3 0 = 0x83 ∧ o₂.getD 3 0 = 0x85 ∧
      ∀ k, k ≠ 3 → o₁.getD k 0 = o₂.getD k 0) :=
  nxdomain_refused_agree exampleQuery 29 512

/-- C2: confirmed.  For every request of length at least 12 whose first
zero byte at or after offset 12 occurs strictly before `req_len - 4`,
and every sufficiently large capacity, both `build_nxdomain_response`
and `build_refused_response` succeed and return 12 plus the
question-section length; the output copies only the 2-byte transaction
ID from the request, has flags byte 2 equal to 0x81 (QR and RD set),
flags byte 3 with RA set (0x80 bit) and RCODE 3 resp. 5 in its low
nibble, QDCOUNT 1, ANCOUNT = NSCOUNT = ARCOUNT = 0, and copies the
question section verbatim from the request. -/
theorem nxdomain_refused_correct (req : List ℕ) (req_len resp_cap : ℕ)
    (hbuf : req_len ≤ req.length)
    (h12 : 12 ≤ req_len)
    (hz : scanZero req req_len 12 < req_len - 4)
    (hcap : scanZero req req_len 12 + 5 ≤ resp_cap) :
    ∃ o₁ o₂,
      build_nxdomain_response req req_len resp_cap = some o₁ ∧
      build_refused_response req req_len resp_cap = some o₂ ∧
      o₁.length = 12 + ((scanZero req req_len 12 - 12) + 1 + 4) ∧
      o₂.length = 12 + ((scanZero req req_len 12 - 12) + 1 + 4) ∧
      o₁.getD 0 0 = req.getD 0 0 ∧ o₁.getD 1 0 = req.getD 1 0 ∧
      o₂.getD 0 0 = req.getD 0 0 ∧ o₂.getD 1 0 = req.getD 1 0 ∧
      o₁.getD 2 0 = 0x81 ∧ o₂.getD 2 0 = 0x81 ∧
      o₁.getD 2 0 &&& 0x80 = 0x80 ∧ o₁.getD 2 0 &&& 0x01 = 0x01 ∧
      o₂.getD 2 0 &&& 0x80 = 0x80 ∧ o₂.getD 2 0 &&& 0x01 = 0x01 ∧
      o₁.getD 3 0 &&& 0x80 = 0x80 ∧ o₁.getD 3 0 &&& 0x0F = 3 ∧
      o₂.getD 3 0 &&& 0x80 = 0x80 ∧ o₂.getD 3 0 &&& 0x0F = 5 ∧
      o₁.getD 4 0 = 0x00 ∧ o₁.getD 5 0 = 0x01 ∧
      o₂.getD 4 0 = 0x00 ∧ o₂.getD 5 0 = 0x01 ∧
      o₁.getD 6 0 = 0 ∧ o₁.getD 7 0 = 0 ∧ o₁.getD 8 0 = 0 ∧
      o₁.getD 9 0 = 0 ∧ o₁.getD 10 0 = 0 ∧ o₁.getD 11 0 = 0 ∧
      o₂.getD 6 0 = 0 ∧ o₂.getD 7 0 = 0 ∧ o₂.getD 8 0 = 0 ∧
      o₂.getD 9 0 = 0 ∧ o₂.getD 10 0 = 0 ∧ o₂.getD 11 0 = 0 ∧
      o₁.drop 12 = (req.drop 12).take ((scanZero req req_len 12 - 12) + 1 + 4) ∧
      o₂.drop 12 = (req.drop 12).take ((scanZero req req_len 12 - 12) + 1 + 4) := by
  have hge := le_scanZero req req_len 12
  have hcopy : copyBytes req 12 ((scanZero req req_len 12 - 12) + 1 + 4)
      = (req.drop 12).take ((scanZero req req_len 12 - 12) + 1 + 4) :=
    copyBytes_eq_take_drop req 12 _ (by omega)
  refine ⟨_, _,
    build_nxdomain_response_eq req req_len resp_cap h12 hz hcap,
    build_refused_response_eq req req_len resp_cap h12 hz hcap,
    by simp [copyBytes_length]; omega, by simp [copyBytes_length]; omega,
    rfl, rfl, rfl, rfl, rfl, rfl,
    (by decide : (0x81 : ℕ) &&& 0x80 = 0x80),
    (by decide : (0x81 : ℕ) &&& 0x01 = 0x01),
    (by decide : (0x81 : ℕ) &&& 0x80 = 0x80),
    (by decide : (0x81 : ℕ) &&& 0x01 = 0x01),
    (by decide : (0x83 : ℕ) &&& 0x80 = 0x80),
    (by decide : (0x83 : ℕ) &&& 0x0F = 3),
    (by decide : (0x85 : ℕ) &&& 0x80 = 0x80),
    (by decide : (0x85 : ℕ) &&& 0x0F = 5),
    rfl, rfl, rfl, rfl, rfl, rfl, rfl, rfl, rfl, rfl, rfl, rfl, rfl, rfl, rfl, rfl,
    ?_, ?_⟩
  · rw [List.drop_left' (by rfl)]; exact hcopy
  · rw [List.drop_left' (by rfl)]; exact hcopy

/-- C2, witness: the generic theorem applied to the example query with
capacity 512. -/
theorem nxdomain_refused_correct_witness :
    ∃ o₁ o₂,
      build_nxdomain_response exampleQuery 29 512 = some o₁ ∧
      build_refused_response exampleQuery 29 512 = some o₂ ∧
      o₁.length = 12 + ((scanZero exampleQuery 29 12 - 12) + 1 + 4) ∧
      o₂.length = 12 + ((scanZero exampleQuery 29 12 - 12) + 1 + 4) ∧
      o₁.getD 0 0 = exampleQuery.getD 0 0 ∧ o₁.getD 1 0 = exampleQuery.getD 1 0 ∧
      o₂.getD 0 0 = exampleQuery.getD 0 0 ∧ o₂.getD 1 0 = exampleQuery.getD 1 0 ∧
      o₁.getD 2 0 = 0x81 ∧ o₂.getD 2 0 = 0x81 ∧
      o₁.getD 2 0 &&& 0x80 = 0x80 ∧ o₁.getD 2 0 &&& 0x01 = 0x01 ∧
      o₂.getD 2 0 &&& 0x80 = 0x80 ∧ o₂.getD 2 0 &&& 0x01 = 0x01 ∧
      o₁.getD 3 0 &&& 0x80 = 0x80 ∧ o₁.getD 3 0 &&& 0x0F = 3 ∧
      o₂.getD 3 0 &&& 0x80 = 0x80 ∧ o₂.getD 3 0 &&& 0x0F = 5 ∧
      o₁.getD 4 0 = 0x00 ∧ o₁.getD 5 0 = 0x01 ∧
      o₂.getD 4 0 = 0x00 ∧ o₂.getD 5 0 = 0x01 ∧
      o₁.getD 6 0 = 0 ∧ o₁.getD 7 0 = 0 ∧ o₁.getD 8 0 = 0 ∧
      o₁.getD 9 0 = 0 ∧ o₁.getD 10 0 = 0 ∧ o₁.getD 11 0 = 0 ∧
      o₂.getD 6 0 = 0 ∧ o₂.getD 7 0 = 0 ∧ o₂.getD 8 0 = 0 ∧
      o₂.getD 9 0 = 0 ∧ o₂.getD 10 0 = 0 ∧ o₂.getD 11 0 = 0 ∧
      o₁.drop 12 = (exampleQuery.drop 12).take ((scanZero exampleQuery 29 12 - 12) + 1 + 4) ∧
      o₂.drop 12 = (exampleQuery.drop 12).take ((scanZero exampleQuery 29 12 - 12) + 1 + 4) :=
  nxdomain_refused_correct exampleQuery 29 512 (by decide) (by decide)
    (by decide) (by decide)

/-- On success, `build_nxdomain_response`'s output has QDCOUNT 1 and
ANCOUNT, NSCOUNT, ARCOUNT all 0 (bytes 4-11 of the rebuilt header). -/
theorem build_nxdomain_counts (req : List ℕ) (req_len resp_cap : ℕ)
    (o : List ℕ) (h : build_nxdomain_response req req_len resp_cap = some o) :
    o.getD 4 0 = 0 ∧ o.getD 5 0 = 1 ∧ o.getD 6 0 = 0 ∧ o.getD 7 0 = 0 ∧
    o.getD 8 0 = 0 ∧ o.getD 9 0 = 0 ∧ o.getD 10 0 = 0 ∧ o.getD 11 0 = 0 := by
  simp only [build_nxdomain_response] at h
  split at h
  · exact absurd h (by simp)
  · split at h
    · exact absurd h (by simp)
    · split at h
      · exact absurd h (by simp)
      · rw [Option.some.injEq] at h
        subst h
        exact ⟨rfl, rfl, rfl, rfl, rfl, rfl, rfl, rfl⟩

/-- On success, `build_refused_response`'s output has QDCOUNT 1 and
ANCOUNT, NSCOUNT, ARCOUNT all 0. -/
theorem build_refused_counts (req : List ℕ) (req_len resp_cap : ℕ)
    (o : List ℕ) (h : build_refused_response req req_len resp_cap = some o) :
    o.getD 4 0 = 0 ∧ o.getD 5 0 = 1 ∧ o.getD 6 0 = 0 ∧ o.getD 7 0 = 0 ∧
    o.getD 8 0 = 0 ∧ o.getD 9 0 = 0 ∧ o.getD 10 0 = 0 ∧ o.getD 11 0 = 0 := by
  simp only [build_refused_response] at h
  split at h
  · exact absurd h (by simp)
  · split at h
    · exact absurd h (by simp)
    · split at h
      · exact absurd h (by simp)
      · rw [Option.some.injEq] at h
        subst h
        exact ⟨rfl, rfl, rfl, rfl, rfl, rfl, rfl, rfl⟩

/-- On success, `build_fake_a_response`'s output inherits QDCOUNT (bytes
4-5) verbatim from the request, and has ANCOUNT 1, NSCOUNT and ARCOUNT
0. -/
theorem build_fake_a_counts (req : List ℕ) (req_len resp_cap : ℕ)
    (fake_ip : List ℕ) (ttl : ℕ) (o : List ℕ)
    (h : build_fake_a_response req req_len resp_cap fake_ip ttl = some o) :
    o.getD 4 0 = req.getD 4 0 ∧ o.getD 5 0 = req.getD 5 0 ∧
    o.getD 6 0 = 0 ∧ o.getD 7 0 = 1 ∧ o.getD 8 0 = 0 ∧ o.getD 9 0 = 0 ∧
    o.getD 10 0 = 0 ∧ o.getD 11 0 = 0 := by
  simp only [build_fake_a_response] at h
  split at h
  · exact absurd h (by simp)
  · split at h
    · exact absurd h (by simp)
    · split at h
      · exact absurd h (by simp)
      · split at h
        · exact absurd h (by simp)
        · split at h
          · exact absurd h (by simp)
          · rw [Option.some.injEq] at h
            subst h
            exact ⟨rfl, rfl, rfl, rfl, rfl, rfl, rfl, rfl⟩

/-- C4 (amended): for every successful invocation, the NXDOMAIN and
REFUSED responses have QDCOUNT = 1 and ANCOUNT = NSCOUNT = ARCOUNT = 0;
the fake-A response has ANCOUNT = 1 and NSCOUNT = ARCOUNT = 0, but its
QDCOUNT field (bytes 4-5) is inherited verbatim from the request rather
than forced to 1 — so it equals 1 exactly when the request's QDCOUNT
is 1. -/
theorem response_count_invariant (req : List ℕ) (req_len resp_cap : ℕ)
    (fake_ip : List ℕ) (ttl : ℕ) :
    (∀ o, build_nxdomain_response req req_len resp_cap = some o →
      o.getD 4 0 = 0 ∧ o.getD 5 0 = 1 ∧ o.getD 6 0 = 0 ∧ o.getD 7 0 = 0 ∧
      o.getD 8 0 = 0 ∧ o.getD 9 0 = 0 ∧ o.getD 10 0 = 0 ∧ o.getD 11 0 = 0) ∧
    (∀ o, build_refused_response req req_len resp_cap = some o →
      o.getD 4 0 = 0 ∧ o.getD 5 0 = 1 ∧ o.getD 6 0 = 0 ∧ o.getD 7 0 = 0 ∧
      o.getD 8 0 = 0 ∧ o.getD 9 0 = 0 ∧ o.getD 10 0 = 0 ∧ o.getD 11 0 = 0) ∧
    (∀ o, build_fake_a_response req req_len resp_cap fake_ip ttl = some o →
      o.getD 4 0 = req.getD 4 0 ∧ o.getD 5 0 = req.getD 5 0 ∧
      o.getD 6 0 = 0 ∧ o.getD 7 0 = 1 ∧ o.getD 8 0 = 0 ∧ o.getD 9 0 = 0 ∧
      o.getD 10 0 = 0 ∧ o.getD 11 0 = 0) :=
  ⟨fun o h => build_nxdomain_counts req req_len resp_cap o h,
   fun o h => build_refused_counts req req_len resp_cap o h,
   fun o h => build_fake_a_counts req req_len resp_cap fake_ip ttl o h⟩

/-- C4, witness: the amended invariant applied to the example query, with
the concrete outputs of the three builders. -/
theorem response_count_invariant_witness :
    ([0x12, 0x34, 0x81, 0x83, 0x00, 0x01, 0x00, 0x00, 0x00, 0x00, 0x00, 0x00,
      7, 101, 120, 97, 109, 112, 108, 101, 3, 99, 111, 109, 0,
      0x00, 0x01, 0x00, 0x01] : List ℕ).getD 4 0 = 0 ∧
    ([0x12, 0x34, 0x81, 0x85, 0x00, 0x01, 0x00, 0x00, 0x00, 0x00, 0x00, 0x00,
      7, 101, 120, 97, 109, 112, 108, 101, 3, 99, 111, 109, 0,
      0x00, 0x01, 0x00, 0x01] : List ℕ).getD 5 0 = 1 ∧
    ([0x12, 0x34, 0x85, 0x80, 0x00, 0x01, 0x00, 0x01, 0x00, 0x00, 0x00, 0x00,
      7, 101, 120, 97, 109, 112, 108, 101, 3, 99, 111, 109, 0,
      0x00, 0x01, 0x00, 0x01,
      0xC0, 0x0C, 0x00, 0x01, 0x00, 0x01, 0, 0, 0, 60, 0x00, 0x04,
      1, 2, 3, 4] : List ℕ).getD 7 0 = 1 :=
  ⟨((response_count_invariant exampleQuery 29 512 ip1234 60).1 _ (by decide)).1,
   (((response_count_invariant exampleQuery 29 512 ip1234 60).2.1 _ (by decide)).2).1,
   ((((response_count_invariant exampleQuery 29 512 ip1234 60).2.2 _ (by decide)).2).2).2.1⟩

/-- The `domain` output of `extract_domain` does not depend on the
QTYPE/QCLASS branch: it is the loop's characters with the final NUL
store applied. -/
theorem extract_domain_domain (buf : List ℕ) (buf_len maxlen : ℕ) :
    (extract_domain buf buf_len maxlen).domain =
      if (extractLoop buf buf_len maxlen 12 0).2 = [] then [0]
      else (extractLoop buf buf_len maxlen 12 0).2.dropLast ++ [0] := by
  simp only [extract_domain]
  split <;> rfl

/-- C6 (amended): `parse_dns_query` returns the failure signal for every
input of fewer than 13 bytes, and reports success exactly when the Name
Decoder produced a domain whose first byte is nonzero.  (A malformed
question section — e.g. a label sequence that ends before its
terminating zero byte — is nevertheless accepted when at least one
name character was decoded, as the counterexample shows.) -/
theorem parse_dns_query_success_iff (buf : List ℕ) (len : ℕ) :
    (len ≤ 12 → parse_dns_query buf len = none) ∧
    (parse_dns_query buf len ≠ none ↔
      (extract_domain buf len 256).domain.getD 0 0 ≠ 0) := by
  constructor
  · intro hle
    have hloop : extractLoop buf len 256 12 0 = (12, []) := by
      unfold extractLoop
      have h0 : len - 12 = 0 := by omega
      rw [h0]
      rfl
    have hdom : (extract_domain buf len 256).domain = [0] := by
      rw [extract_domain_domain, hloop]
      rfl
    simp [parse_dns_query, hdom]
  · simp only [parse_dns_query]
    constructor
    · intro h
      by_cases hc : (extract_domain buf len 256).domain.getD 0 0 ≠ 0
      · exact hc
      · rw [if_neg hc] at h
        exact absurd rfl h
    · intro hc
      rw [if_pos hc]
      exact Option.some_ne_none _

/-- For any decomposition `pre ++ suf`, dropping all but the last
`suf.length` elements leaves `suf` — used for the "last 4 bytes"
claims. -/
theorem drop_length_sub (pre suf : List ℕ) :
    (pre ++ suf).drop ((pre ++ suf).length - suf.length) = suf := by
  rw [List.length_append, Nat.add_sub_cancel, List.drop_left]

/-- C1: confirmed.  For every request of length at least 12 whose first
zero byte at or after offset 12 occurs strictly before `req_len - 4`,
every sufficiently large capacity, every ttl, and every fake_ip that
`inet_pton` parses, `build_fake_a_response` succeeds; the response
copies the request's 2-byte transaction ID, has QR (0x80) and AA (0x04)
set in flags byte 2 and RA (0x80) in flags byte 3, preserves the
request's RD bit (0x01 of byte 2), has RCODE 0 (low nibble of byte 3),
ANCOUNT = 1, NSCOUNT = ARCOUNT = 0, copies the question section
verbatim from the request, and its last 4 bytes are the parsed
address's raw octets. -/
theorem fake_a_response_correct (req : List ℕ) (req_len resp_cap : ℕ)
    (fake_ip : List ℕ) (ttl : ℕ) (a b c d : ℕ)
    (hbuf : req_len ≤ req.length)
    (h12 : 12 ≤ req_len)
    (hz : scanZero req req_len 12 < req_len - 4)
    (hcap : scanZero req req_len 12 + 21 ≤ resp_cap)
    (hip : inet_pton fake_ip = some (a, b, c, d)) :
    ∃ o, build_fake_a_response req req_len resp_cap fake_ip ttl = some o ∧
      o.getD 0 0 = req.getD 0 0 ∧ o.getD 1 0 = req.getD 1 0 ∧
      o.getD 2 0 &&& 0x80 = 0x80 ∧
      o.getD 2 0 &&& 0x04 = 0x04 ∧
      o.getD 3 0 &&& 0x80 = 0x80 ∧
      o.getD 2 0 &&& 0x01 = req.getD 2 0 &&& 0x01 ∧
      o.getD 3 0 &&& 0x0F = 0 ∧
      o.getD 6 0 = 0 ∧ o.getD 7 0 = 1 ∧
      o.getD 8 0 = 0 ∧ o.getD 9 0 = 0 ∧ o.getD 10 0 = 0 ∧ o.getD 11 0 = 0 ∧
      (o.drop 12).take ((scanZero req req_len 12 - 12) + 1 + 4)
        = (req.drop 12).take ((scanZero req req_len 12 - 12) + 1 + 4) ∧
      o.drop (o.length - 4) = [a, b, c, d] := by
  have hge := le_scanZero req req_len 12
  have hcopy : copyBytes req 12 ((scanZero req req_len 12 - 12) + 1 + 4)
      = (req.drop 12).take ((scanZero req req_len 12 - 12) + 1 + 4) :=
    copyBytes_eq_take_drop req 12 _ (by omega)
  obtain ⟨hb80, hb04, hb01⟩ := flags2_bits (req.getD 2 0)
  refine ⟨_,
    build_fake_a_response_eq req req_len resp_cap fake_ip ttl a b c d
      h12 hz hcap hip,
    rfl, rfl, hb80, hb04,
    (by decide : (0x80 : ℕ) &&& 0x80 = 0x80),
    hb01,
    (by decide : (0x80 : ℕ) &&& 0x0F = 0),
    rfl, rfl, rfl, rfl, rfl, rfl, ?_, ?_⟩
  · simp only [List.append_assoc]
    rw [List.drop_left' (by rfl), List.take_left' (copyBytes_length req 12 _)]
    exact hcopy
  · exact drop_length_sub _ [a, b, c, d]

/-- C1, witness: the generic theorem applied to the example query with
fake_ip "1.2.3.4", ttl 60 and capacity 512. -/
theorem fake_a_response_correct_witness :
    ∃ o, build_fake_a_response exampleQuery 29 512 ip1234 60 = some o ∧
      o.getD 0 0 = exampleQuery.getD 0 0 ∧ o.getD 1 0 = exampleQuery.getD 1 0 ∧
      o.getD 2 0 &&& 0x80 = 0x80 ∧
      o.getD 2 0 &&& 0x04 = 0x04 ∧
      o.getD 3 0 &&& 0x80 = 0x80 ∧
      o.getD 2 0 &&& 0x01 = exampleQuery.getD 2 0 &&& 0x01 ∧
      o.getD 3 0 &&& 0x0F = 0 ∧
      o.getD 6 0 = 0 ∧ o.getD 7 0 = 1 ∧
      o.getD 8 0 = 0 ∧ o.getD 9 0 = 0 ∧ o.getD 10 0 = 0 ∧ o.getD 11 0 = 0 ∧
      (o.drop 12).take ((scanZero exampleQuery 29 12 - 12) + 1 + 4)
        = (exampleQuery.drop 12).take ((scanZero exampleQuery 29 12 - 12) + 1 + 4) ∧
      o.drop (o.length - 4) = [1, 2, 3, 4] :=
  fake_a_response_correct exampleQuery 29 512 ip1234 60 1 2 3 4
    (by decide) (by decide) (by decide) (by decide) (by decide)

/-- The loop of `extract_domain` respects the output bound: starting from
character position `pos` with `pos + 1 ≤ maxlen`, the characters it
emits keep the final position strictly below `maxlen` (the C guard
`pos + len + 1 >= maxlen` breaks before any overflowing label). -/
theorem extractLoopAux_length (buf : List ℕ) (buf_len maxlen : ℕ) :
    ∀ fuel i pos, pos + 1 ≤ maxlen →
      pos + (extractLoopAux buf buf_len maxlen fuel i pos).2.length + 1 ≤ maxlen := by
  intro fuel
  induction fuel with
  | zero => intro i pos h; simpa [extractLoopAux] using h
  | succ n ih =>
    intro i pos h
    simp only [extractLoopAux]
    split
    · split
      · simpa using h
      · rename_i hcond hbreak
        have hc : min (buf.getD i 0) (buf_len - (i + 1)) ≤ buf.getD i 0 :=
          Nat.min_le_left _ _
        have hrec := ih (i + 1 + min (buf.getD i 0) (buf_len - (i + 1)))
          (pos + (min (buf.getD i 0) (buf_len - (i + 1)) + 1)) (by omega)
        simp only [List.length_append, List.length_cons, List.length_nil,
          copyBytes_length] at hrec ⊢
        omega
    · simpa using h

/-- `takeWhile (· ≠ 0)` ignores a trailing NUL. -/
theorem takeWhile_ne_zero_concat (l : List ℕ) :
    (l ++ [0]).takeWhile (· ≠ 0) = l.takeWhile (· ≠ 0) := by
  induction l with
  | nil => simp
  | cons a t ih =>
    simp only [ne_eq, decide_not] at ih ⊢
    by_cases ha : a = 0
    · subst ha; simp
    · simp [List.takeWhile_cons, ha, ih]

/-- C10 (amended): for every buffer, every `buf_len`, and every
`maxlen ≥ 2`, `extract_domain` writes into `domain` only at indices
strictly below `maxlen - 1`, and on return `domain` holds a
NUL-terminated string of length at most `maxlen - 2`.  (For
`maxlen = 1` the final NUL is stored at index 0 = `maxlen - 1`, as the
counterexample shows, so the bound `maxlen ≥ 2` is necessary.) -/
theorem extract_domain_writes_bounded (buf : List ℕ) (buf_len maxlen : ℕ)
    (h2 : 2 ≤ maxlen) :
    (∀ w ∈ extract_domain_writes buf buf_len maxlen, w.1 < maxlen - 1) ∧
    (extract_domain buf buf_len maxlen).domain.getD
      ((extract_domain buf buf_len maxlen).domain.length - 1) 0 = 0 ∧
    ((extract_domain buf buf_len maxlen).domain.takeWhile (· ≠ 0)).length
      ≤ maxlen - 2 := by
  have hlen := extractLoopAux_length buf buf_len maxlen (buf_len - 12) 12 0
    (by omega)
  have hlen' : (extractLoop buf buf_len maxlen 12 0).2.length + 1 ≤ maxlen := by
    simpa [extractLoop] using hlen
  refine ⟨?_, ?_, ?_⟩
  · intro w hw
    rcases List.mem_append.mp hw with hw | hw
    · rcases w with ⟨wi, wv⟩
      rw [List.enum_eq_zip_range] at hw
      have h1 := (List.of_mem_zip hw).1
      rw [List.mem_range] at h1
      show wi < maxlen - 1
      omega
    · simp only [List.mem_singleton] at hw
      subst hw
      show (extractLoop buf buf_len maxlen 12 0).2.length - 1 < maxlen - 1
      omega
  · rw [extract_domain_domain]
    split
    · rfl
    · rw [List.length_append, List.length_singleton, Nat.add_sub_cancel,
        List.getD_eq_getElem?_getD, List.getElem?_append_right (Nat.le_refl _),
        Nat.sub_self]
      rfl
  · rw [extract_domain_domain]
    split
    · simp
    · rename_i hne
      rw [takeWhile_ne_zero_concat]
      have hsub := (List.takeWhile_sublist
        (l := (extractLoop buf buf_len maxlen 12 0).2.dropLast)
        (p := (· ≠ 0))).length_le
      have hdl : (extractLoop buf buf_len maxlen 12 0).2.dropLast.length
          = (extractLoop buf buf_len maxlen 12 0).2.length - 1 :=
        List.length_dropLast _
      have hpos : 0 < (extractLoop buf buf_len maxlen 12 0).2.length :=
        List.length_pos.mpr hne
      omega

/-- C10, witness: the amended bound applied to the example query with
`maxlen = 256`. -/
theorem extract_domain_writes_bounded_witness :
    (∀ w ∈ extract_domain_writes exampleQuery 29 256, w.1 < 256 - 1) ∧
    (extract_domain exampleQuery 29 256).domain.getD
      ((extract_domain exampleQuery 29 256).domain.length - 1) 0 = 0 ∧
    ((extract_domain exampleQuery 29 256).domain.takeWhile (· ≠ 0)).length
      ≤ 256 - 2 :=
  extract_domain_writes_bounded exampleQuery 29 256 (by decide)

/-- C6, witness: the amended theorem applied to the empty input and to
the example query. -/
theorem parse_dns_query_success_iff_witness :
    parse_dns_query [] 0 = none ∧
    (parse_dns_query exampleQuery 29 ≠ none ↔
      (extract_domain exampleQuery 29 256).domain.getD 0 0 ≠ 0) :=
  ⟨(parse_dns_query_success_iff [] 0).1 (by decide),
   (parse_dns_query_success_iff exampleQuery 29).2⟩

/-! ## The round-trip property of the Name Decoder -/

theorem getD_of_drop (buf : List ℕ) (i a : ℕ) (t : List ℕ)
    (h : buf.drop i = a :: t) : buf.getD i 0 = a := by
  have h0 : buf[i]? = some a := by
    have h1 := List.getElem?_drop buf i 0
    rw [h] at h1
    simpa using h1.symm
  rw [List.getD_eq_getElem?_getD, h0]
  rfl

theorem lt_length_of_drop_cons (buf : List ℕ) (i a : ℕ) (t : List ℕ)
    (h : buf.drop i = a :: t) : i < buf.length := by
  by_contra hge
  rw [List.drop_eq_nil_of_le (by omega)] at h
  exact List.noConfusion h

theorem encodeLabels_length_pos (labels : List (List ℕ)) :
    0 < (encodeLabels labels).length := by
  simp [encodeLabels]

/-- Running the `extract_domain` loop over a well-formed question name
(nonempty labels, wire-encoded by `encodeLabels`) decodes exactly those
labels: the loop stops on the terminating zero byte, having emitted
each label followed by a separator, provided the output limit `maxlen`
is not hit and the fuel covers the region. -/
theorem extractLoopAux_encode (buf : List ℕ) (maxlen : ℕ) :
    ∀ (labels : List (List ℕ)) (fuel i pos : ℕ) (rest : List ℕ),
      (∀ l ∈ labels, l ≠ []) →
      buf.drop i = encodeLabels labels ++ rest →
      pos + (encodeLabels labels).length ≤ maxlen →
      buf.length ≤ i + fuel →
      extractLoopAux buf buf.length maxlen fuel i pos =
        (i + (encodeLabels labels).length - 1,
         (labels.map (fun l => l ++ [46])).flatten) := by
  intro labels
  induction labels with
  | nil =>
    intro fuel i pos rest hval hdrop hm hfuel
    have hd : buf.drop i = 0 :: rest := by simpa [encodeLabels] using hdrop
    have hi : i < buf.length := lt_length_of_drop_cons buf i 0 rest hd
    have hg : buf.getD i 0 = 0 := getD_of_drop buf i 0 rest hd
    rcases fuel with _ | fuel
    · omega
    · simp only [extractLoopAux, hg]
      rw [if_neg (by simp)]
      simp [encodeLabels]
  | cons l ls ih =>
    intro fuel i pos rest hval hdrop hm hfuel
    have hlne : l ≠ [] := hval l (by simp)
    have hllen : l.length ≠ 0 := fun h => hlne (List.length_eq_zero.mp h)
    have hdec : encodeLabels (l :: ls) = l.length :: (l ++ encodeLabels ls) := by
      simp [encodeLabels]
    rw [hdec] at hdrop
    simp only [List.cons_append, List.append_assoc] at hdrop
    have hi : i < buf.length :=
      lt_length_of_drop_cons buf i l.length _ hdrop
    have hg : buf.getD i 0 = l.length :=
      getD_of_drop buf i l.length _ hdrop
    have hdrop1 : buf.drop (i + 1) = l ++ (encodeLabels ls ++ rest) := by
      have h1 := congrArg (List.drop 1) hdrop
      rw [List.drop_drop] at h1
      simpa using h1
    have hlen1 : buf.length - (i + 1) = (l ++ (encodeLabels ls ++ rest)).length := by
      rw [← hdrop1, List.length_drop]
    have hgecap : l.length ≤ buf.length - (i + 1) := by
      rw [hlen1, List.length_append]
      omega
    have hLpos := encodeLabels_length_pos ls
    have hm' : pos + l.length + 2 ≤ maxlen := by
      rw [hdec] at hm
      simp only [List.length_cons, List.length_append] at hm
      omega
    rcases fuel with _ | fuel
    · omega
    · have hcmin : min (buf.getD i 0) (buf.length - (i + 1)) = l.length := by
        rw [hg]
        exact Nat.min_eq_left hgecap
      have hcopy : copyBytes buf (i + 1) l.length = l := by
        rw [copyBytes_eq_take_drop buf (i + 1) l.length (by omega), hdrop1]
        exact List.take_left l _
      have hdrop2 : buf.drop (i + 1 + l.length) = encodeLabels ls ++ rest := by
        have h2 := congrArg (List.drop l.length) hdrop1
        rw [List.drop_drop, List.drop_left] at h2
        exact h2
      have hrec := ih fuel (i + 1 + l.length) (pos + (l.length + 1)) rest
        (fun l' hl' => hval l' (by simp [hl'])) hdrop2
        (by rw [hdec] at hm; simp only [List.length_cons, List.length_append] at hm; omega)
        (by omega)
      simp only [extractLoopAux]
      rw [if_pos ⟨hi, by rw [hg]; exact hllen⟩]
      rw [if_neg (by rw [hg]; omega)]
      rw [hcmin, hcopy, hrec]
      rw [hdec]
      simp only [Prod.mk.injEq, List.map_cons, List.flatten_cons,
        List.length_cons, List.length_append, List.append_assoc]
      constructor
      · omega
      · trivial

/-- Dropping the final separator from the decoder's character stream
yields the labels joined by single separators. -/
theorem dropLast_flatten_sep (labels : List (List ℕ)) (hne : labels ≠ []) :
    ((labels.map (fun l => l ++ [46])).flatten).dropLast
      = [46].intercalate labels := by
  induction labels with
  | nil => exact absurd rfl hne
  | cons l ls ih =>
    cases ls with
    | nil =>
      simp [List.intercalate, List.dropLast_concat]
    | cons m ms =>
      have hx : (((m :: ms).map (fun l => l ++ [46])).flatten) ≠ [] := by
        simp
      rw [List.map_cons, List.flatten_cons,
        List.dropLast_append_of_ne_nil _ hx, ih (by simp)]
      simp [List.intercalate, List.intersperse_cons_cons, List.append_assoc]

/-- C7: confirmed.  For every valid single-question query — arbitrary
12-byte header, question name wire-encoded from nonempty labels of at
most 63 octets whose bytes are nonzero, below 256 and not the separator
46, followed by 4 bytes of QTYPE/QCLASS — with total encoded name
length below 253 octets, re-encoding the dotted name produced by the
Name Decoder (`extract_domain` with maxlen 256) as length-prefixed
labels reproduces the original question-name encoding byte for byte. -/
theorem name_decoder_roundtrip (hdr tail : List ℕ) (labels : List (List ℕ))
    (hhdr : hdr.length = 12) (htail : tail.length = 4)
    (hne : labels ≠ [])
    (hval : ∀ l ∈ labels,
      l ≠ [] ∧ l.length ≤ 63 ∧ ∀ b ∈ l, 0 < b ∧ b < 256 ∧ b ≠ 46)
    (hlen : (encodeLabels labels).length < 253) :
    encodeDotted (cString (extract_domain
        (hdr ++ (encodeLabels labels ++ tail))
        (hdr ++ (encodeLabels labels ++ tail)).length 256).domain)
      = encodeLabels labels := by
  set buf := hdr ++ (encodeLabels labels ++ tail) with hbuf
  have hblen : buf.length = 12 + ((encodeLabels labels).length + tail.length) := by
    rw [hbuf]
    simp [hhdr]
  have hdrop : buf.drop 12 = encodeLabels labels ++ tail := by
    rw [hbuf]
    exact List.drop_left' hhdr
  have hloop : extractLoop buf buf.length 256 12 0 =
      (12 + (encodeLabels labels).length - 1,
       (labels.map (fun l => l ++ [46])).flatten) := by
    unfold extractLoop
    exact extractLoopAux_encode buf 256 labels (buf.length - 12) 12 0 tail
      (fun l hl => (hval l hl).1) hdrop (by omega) (by omega)
  have hcne : (labels.map (fun l => l ++ [46])).flatten ≠ [] := by
    cases labels with
    | nil => exact absurd rfl hne
    | cons l ls => simp
  have hdom : (extract_domain buf buf.length 256).domain =
      ((labels.map (fun l => l ++ [46])).flatten).dropLast ++ [0] := by
    rw [extract_domain_domain, hloop]
    exact if_neg hcne
  have hmem : ∀ b ∈ ((labels.map (fun l => l ++ [46])).flatten).dropLast, b ≠ 0 := by
    intro b hb
    have hbm : b ∈ (labels.map (fun l => l ++ [46])).flatten :=
      (List.dropLast_sublist _).subset hb
    rcases List.mem_flatten.mp hbm with ⟨l', hl', hbl'⟩
    rcases List.mem_map.mp hl' with ⟨l, hl, rfl⟩
    rcases List.mem_append.mp hbl' with hbl | hb46
    · have := ((hval l hl).2.2 b hbl).1
      omega
    · simp only [List.mem_singleton] at hb46
      omega
  have hcstr : cString (((labels.map (fun l => l ++ [46])).flatten).dropLast ++ [0])
      = ((labels.map (fun l => l ++ [46])).flatten).dropLast := by
    unfold cString
    rw [takeWhile_ne_zero_concat]
    rw [List.takeWhile_eq_self_iff.mpr]
    intro b hb
    simpa using hmem b hb
  have hsplit : (((labels.map (fun l => l ++ [46])).flatten).dropLast).splitOn 46
      = labels := by
    rw [dropLast_flatten_sep labels hne]
    exact List.splitOn_intercalate labels 46
      (fun l hl hmem46 => ((hval l hl).2.2 46 hmem46).2.2 rfl) hne
  rw [hdom, hcstr]
  unfold encodeDotted
  rw [hsplit]
  rfl

/-- C7, witness: the round-trip applied to the example.com question under
an arbitrary concrete 12-byte header. -/
theorem name_decoder_roundtrip_witness :
    encodeDotted (cString (extract_domain
        ([0x12, 0x34, 0x01, 0x00, 0x00, 0x01,
          0x00, 0x00, 0x00, 0x00, 0x00, 0x00] ++
         (encodeLabels [[101, 120, 97, 109, 112, 108, 101], [99, 111, 109]] ++
          [0x00, 0x01, 0x00, 0x01]))
        ([0x12, 0x34, 0x01, 0x00, 0x00, 0x01,
          0x00, 0x00, 0x00, 0x00, 0x00, 0x00] ++
         (encodeLabels [[101, 120, 97, 109, 112, 108, 101], [99, 111, 109]] ++
          [0x00, 0x01, 0x00, 0x01])).length 256).domain)
      = encodeLabels [[101, 120, 97, 109, 112, 108, 101], [99, 111, 109]] :=
  name_decoder_roundtrip
    [0x12, 0x34, 0x01, 0x00, 0x00, 0x01, 0x00, 0x00, 0x00, 0x00, 0x00, 0x00]
    [0x00, 0x01, 0x00, 0x01]
    [[101, 120, 97, 109, 112, 108, 101], [99, 111, 109]]
    (by decide) (by decide) (by decide) (by decide) (by decide)

end DnsProxy
